import Mathlib

/-!
Verification of the player-prop feature/label/train/evaluate/serve core.

Shallow embedding of the ML-pipeline core of the repository:

* src/services/api/app/routes/jobs.py — rolling-window statistics
  (the functions named mean, stddev_pop, weighted_mean_recent and
  trend_slope with a leading underscore), the build_features windowing
  loop and its ON CONFLICT upsert, and the attach_labels UPDATE-join.
* src/services/training/train.py — the training job's labeled-row gate,
  artifact/metadata writes and registry upserts.
* src/services/training/eval.py — metadata-driven feature-column loading,
  labeled-row loading with the market-specific population filter, and the
  time-ordered train/test split.
* src/services/api/app/routes/players.py — the projection_ml serving
  path with its lookback-agreement validation.

Numeric values that the Python code holds as floats are modelled as
rationals.  The only irrational operation in the core, math.sqrt inside
the population-standard-deviation helper, is modelled by carrying the
square of the standard deviation (the population variance) end to end:
the stored stddev column in this development holds that square.  Since
math.sqrt is injective on the nonnegatives, every identity, idempotence
and equality claim about the stored column transfers verbatim.
Fallible paths (HTTPException, SystemExit) are modelled with Except.
The fitted scikit-learn pipeline and its float metrics (mae, rmse, r2)
are opaque to every claim and are either omitted or passed in as an
abstract prediction function.
-/

namespace PropML

/-! ### Window statistics (jobs.py lines 30 to 103) -/

/-- Arithmetic mean of a window: the function with source name
prefixed by an underscore, jobs.py line 42, computing
sum(vals) / len(vals).  On the empty list Python raises
ZeroDivisionError; in the rationals the division yields 0, and every
theorem below only uses the mean on non-empty windows. -/
def _mean (vals : List ℚ) : ℚ :=
  vals.sum / vals.length

/-- Square of the population standard deviation computed at jobs.py
lines 58 and 59: the code returns the square root of
sum((x - m) ** 2 for x in vals) / len(vals); this definition is that
radicand, i.e. the population variance with divisor n (not n-1). -/
def _stddev_pop_sq (vals : List ℚ) : ℚ :=
  ((vals.map (fun x => (x - _mean vals) ^ 2)).sum) / vals.length

/-- Linearly weighted mean favouring recency, jobs.py lines 77 to 79:
weights 1..n assigned oldest to newest, sum(v * w) / sum(weights). -/
def _weighted_mean_recent (vals : List ℚ) : ℚ :=
  let n := vals.length
  let weights := (List.range n).map (fun i : ℕ => ((i : ℚ) + 1))
  ((vals.zip weights).map (fun p => p.1 * p.2)).sum / weights.sum

/-- Regression denominator den = sum((x - xbar) ** 2 for x in xs) with
xs = 1..n, jobs.py line 102. -/
def _trend_den (n : ℕ) : ℚ :=
  let xs := (List.range n).map (fun i : ℕ => ((i : ℚ) + 1))
  let xbar := xs.sum / n
  (xs.map (fun x => (x - xbar) ^ 2)).sum

/-- Regression numerator num = sum((x - xbar) * (y - ybar) ...) of the
trend-slope helper, jobs.py line 101. -/
def _trend_num (vals : List ℚ) : ℚ :=
  let n := vals.length
  let xs := (List.range n).map (fun i : ℕ => ((i : ℚ) + 1))
  let xbar := xs.sum / n
  let ybar := _mean vals
  ((xs.zip vals).map (fun p => (p.1 - xbar) * (p.2 - ybar))).sum

/-- Trend slope, jobs.py lines 97 to 103: ordinary-least-squares slope
of the values against index 1..n, with 0.0 returned when the
denominator is zero. -/
def _trend_slope (vals : List ℚ) : ℚ :=
  if _trend_den vals.length = 0 then 0 else _trend_num vals / _trend_den vals.length

/-! ### Data model of the feature store -/

/-- One per-game observation for one player, as selected by the
build_features query (jobs.py lines 157 to 161): the game date, the
opponent and the value of the market's stat_field.  Dates are modelled
as naturals ordered chronologically. -/
structure Obs where
  game_date : ℕ
  opponent : String
  y : ℚ
deriving DecidableEq

/-- Natural key of player_market_features:
(player_id, market_id, as_of_game_date, opponent, lookback), the
ON CONFLICT target at jobs.py line 174. -/
structure FeatKey where
  player_id : ℕ
  market_id : ℕ
  as_of_game_date : ℕ
  opponent : String
  lookback : ℕ
deriving DecidableEq

/-- One VALUES tuple of the build_features INSERT (jobs.py lines
169 to 173): the natural key plus the four computed statistics.  The
label_actual column is absent from the INSERT column list.  The stddev
field holds the population variance (see the module comment). -/
structure NewFeatureRow where
  key : FeatKey
  mean : ℚ
  stddev : ℚ
  weighted_mean : ℚ
  trend : ℚ
deriving DecidableEq

/-- One stored row of player_market_features: key, the four statistics
and the nullable label_actual column. -/
structure FeatEntry where
  key : FeatKey
  mean : ℚ
  stddev : ℚ
  weighted_mean : ℚ
  trend : ℚ
  label_actual : Option ℚ
deriving DecidableEq

/-! ### TimeSeriesWindower (jobs.py build_features, lines 182 to 208) -/

/-- The feature row the build_features loop body constructs for one
anchor observation g and window w (jobs.py lines 189 to 206). -/
def statRow (player_id market_id lookback : ℕ) (g : Obs) (w : List ℚ) : NewFeatureRow :=
  { key := { player_id := player_id, market_id := market_id,
             as_of_game_date := g.game_date, opponent := g.opponent, lookback := lookback }
  , mean := _mean w
  , stddev := _stddev_pop_sq w
  , weighted_mean := _weighted_mean_recent w
  , trend := _trend_slope w }

/-- The per-player windowing loop of build_features (jobs.py lines
183 to 208): for i in range(len(games)), skip while i < lookback,
otherwise build a row over the Python slice ys[i - lookback : i].
For lookback ≤ i ≤ len(games) that slice is drop (i - lookback)
followed by take lookback. -/
def build_features (player_id market_id lookback : ℕ) (games : List Obs) : List NewFeatureRow :=
  let ys := games.map Obs.y
  (List.range games.length).filterMap fun i =>
    if i < lookback then none
    else (games[i]?).map fun g =>
      statRow player_id market_id lookback g ((ys.drop (i - lookback)).take lookback)

/-- Total-function form of the loop body at index i, used to state the
characterization of build_features.  For i < games.length it agrees
with the row built from the observation at index i. -/
def rowAt (player_id market_id lookback : ℕ) (games : List Obs) (i : ℕ) : NewFeatureRow :=
  statRow player_id market_id lookback (games.getD i ⟨0, "", 0⟩)
    (((games.map Obs.y).drop (i - lookback)).take lookback)

/-! ### FeatureStore (jobs.py upsert_sql, lines 169 to 180) -/

/-- Effect of the DO UPDATE branch: overwrite exactly the four
statistic columns of an existing entry (jobs.py lines 175 to 179). -/
def setStats (r : NewFeatureRow) (e : FeatEntry) : FeatEntry :=
  { e with mean := r.mean, stddev := r.stddev,
           weighted_mean := r.weighted_mean, trend := r.trend }

/-- Effect of the INSERT branch: a fresh entry whose label_actual is
NULL because that column is absent from the INSERT column list. -/
def freshEntry (r : NewFeatureRow) : FeatEntry :=
  { key := r.key, mean := r.mean, stddev := r.stddev,
    weighted_mean := r.weighted_mean, trend := r.trend, label_actual := none }

/-- One execution of upsert_sql against the table: INSERT ... ON
CONFLICT (natural key) DO UPDATE SET the four statistics. -/
def upsert_feature_row (tbl : List FeatEntry) (r : NewFeatureRow) : List FeatEntry :=
  if tbl.any (fun e => decide (e.key = r.key)) then
    tbl.map (fun e => if e.key = r.key then setStats r e else e)
  else tbl ++ [freshEntry r]

/-- The whole build_features write phase: the upsert statement executed
once per produced row, in order. -/
def upsert_features (tbl : List FeatEntry) (rows : List NewFeatureRow) : List FeatEntry :=
  rows.foldl upsert_feature_row tbl

/-- Row lookup by natural key (the key is UNIQUE in the database; in
the list model this returns the first matching row). -/
def lookupKey (tbl : List FeatEntry) (k : FeatKey) : Option FeatEntry :=
  tbl.find? (fun e => decide (e.key = k))

/-- The stored label at a key: none when the key is absent or the
label_actual column is NULL. -/
def labelAt (tbl : List FeatEntry) (k : FeatKey) : Option ℚ :=
  (lookupKey tbl k).bind FeatEntry.label_actual

/-- Key-presence test for the table. -/
def hasKey (tbl : List FeatEntry) (k : FeatKey) : Bool :=
  tbl.any (fun e => decide (e.key = k))

/-! ### LabelAttacher (jobs.py attach_labels, lines 249 to 262) -/

/-- One row of player_game_stats_app as seen by the attach_labels
UPDATE join: identity columns plus the value of the market's
stat_field. -/
structure GameStat where
  player_id : ℕ
  game_date : ℕ
  opponent : String
  value : ℚ
deriving DecidableEq

/-- The join condition of the UPDATE (jobs.py lines 253 to 255):
an observation matching a feature row on
(player_id, game_date = as_of_game_date, opponent). -/
def matchingStat (obs : List GameStat) (k : FeatKey) : Option GameStat :=
  obs.find? (fun o =>
    decide (o.player_id = k.player_id ∧ o.game_date = k.as_of_game_date ∧ o.opponent = k.opponent))

/-- State effect of the attach_labels UPDATE: every feature row of the
market with a matching observation gets label_actual set to that
observation's stat value; all other rows are untouched. -/
def attach_labels_table (market_id : ℕ) (obs : List GameStat) (tbl : List FeatEntry) : List FeatEntry :=
  tbl.map fun e =>
    if e.key.market_id = market_id then
      match matchingStat obs e.key with
      | some o => { e with label_actual := some o.value }
      | none => e
    else e

/-- The row count the endpoint reports (jobs.py line 262,
res.rowcount): in PostgreSQL an UPDATE ... FROM reports the number of
target rows matched by the WHERE/join, whether or not the new value
differs from the old one. -/
def attach_labels_count (market_id : ℕ) (obs : List GameStat) (tbl : List FeatEntry) : ℕ :=
  (tbl.filter fun e =>
    decide (e.key.market_id = market_id) && (matchingStat obs e.key).isSome).length

/-! ### Markets and the model registry -/

/-- A prop_markets row: id, code, stat_field and display name. -/
structure Market where
  id : ℕ
  code : String
  stat_field : String
  name : String
deriving DecidableEq

/-- An active_models row (train.py lines 166 to 178): market_id is the
conflict target, so it is the natural key of the table. -/
structure ActiveModelRow where
  market_id : ℕ
  lookback : ℕ
  model_name : String
  artifact_path : String
deriving DecidableEq

/-- The active_models upsert of train.py (lines 166 to 178):
INSERT ... ON CONFLICT (market_id) DO UPDATE SET lookback, model_name,
artifact_path.  The updated_at timestamp is not modelled. -/
def set_active (tblA : List ActiveModelRow) (p : ActiveModelRow) : List ActiveModelRow :=
  if tblA.any (fun r => decide (r.market_id = p.market_id)) then
    tblA.map (fun r =>
      if r.market_id = p.market_id then
        { r with lookback := p.lookback, model_name := p.model_name,
                 artifact_path := p.artifact_path }
      else r)
  else tblA ++ [p]

/-- The serving path's active-model lookup (players.py lines
199 to 206). -/
def get_active (tblA : List ActiveModelRow) (market_id : ℕ) : Option ActiveModelRow :=
  tblA.find? (fun r => decide (r.market_id = market_id))

/-! ### ModelTrainer (train.py main) -/

namespace Train

/-- FEATURE_COLS of train.py line 33: the ordered feature-column list
written into every artifact's metadata. -/
def FEATURE_COLS : List String := ["mean", "stddev", "weighted_mean", "trend"]

/-- A trained_models history row (train.py lines 148 to 165); the
float metrics columns (mae, rmse, r2) and created_at are not
modelled. -/
structure TrainedModelRow where
  model_name : String
  market_id : ℕ
  lookback : ℕ
  artifact_path : String
  train_rows : ℕ
  test_rows : ℕ
deriving DecidableEq

/-- The JSON metadata record written next to the artifact (train.py
lines 130 to 144); float metrics omitted. -/
structure MetaRecord where
  model_name : String
  market_code : String
  market_name : String
  lookback : ℕ
  feature_cols : List String
  train_rows : ℕ
  test_rows : ℕ
  artifact_path : String
deriving DecidableEq

/-- Everything a successful training run persists: the artifact file,
its metadata record, the trained_models history row and the
active_models pointer (the nominal path in which the optional registry
tables exist, train.py lines 127 to 179). -/
structure TrainOutput where
  artifact_path : String
  meta : MetaRecord
  history : TrainedModelRow
  active : ActiveModelRow
deriving DecidableEq

/-- The two SystemExit failure modes of train.py main (lines 86
and 103). -/
inductive TrainError
  | marketNotFound
  | insufficientData (found : ℕ)
deriving DecidableEq

/-- The labeled-row selection of train.py lines 90 to 99: rows of the
market and lookback whose label_actual IS NOT NULL. -/
def labeled_rows (tbl : List FeatEntry) (market_id lookback : ℕ) : List FeatEntry :=
  tbl.filter fun e =>
    decide (e.key.market_id = market_id) && decide (e.key.lookback = lookback)
      && e.label_actual.isSome

/-- Holdout size of train_test_split(test_size=0.25): scikit-learn
takes the ceiling of 0.25 * n. -/
def sklearn_test_count (n : ℕ) : ℕ := (n + 3) / 4

/-- The train.py main flow on the nominal registry path: resolve the
market (SystemExit when unknown), select labeled rows, SystemExit when
fewer than 10, otherwise fit and persist artifact + metadata + history
row + active pointer.  The regression fit itself is float-valued and
opaque to every claim, so only the persisted identity fields are
modelled. -/
def train_job (markets : List Market) (tbl : List FeatEntry)
    (market_code model_name artifact_dir : String) (lookback : ℕ) :
    Except TrainError TrainOutput :=
  match markets.find? (fun m => decide (m.code = market_code)) with
  | none => .error .marketNotFound
  | some m =>
    let rows := labeled_rows tbl m.id lookback
    if rows.length < 10 then .error (.insufficientData rows.length)
    else
      let artifact_path :=
        artifact_dir ++ "/" ++ model_name ++ "_" ++ market_code ++ "_lb"
          ++ toString lookback ++ ".joblib"
      let test_rows := sklearn_test_count rows.length
      let train_rows := rows.length - test_rows
      .ok { artifact_path := artifact_path
          , meta := { model_name := model_name, market_code := market_code,
                      market_name := m.name, lookback := lookback,
                      feature_cols := FEATURE_COLS, train_rows := train_rows,
                      test_rows := test_rows, artifact_path := artifact_path }
          , history := { model_name := model_name, market_id := m.id, lookback := lookback,
                         artifact_path := artifact_path, train_rows := train_rows,
                         test_rows := test_rows }
          , active := { market_id := m.id, lookback := lookback,
                        model_name := model_name, artifact_path := artifact_path } }

end Train

/-! ### ModelEvaluator (eval.py) -/

namespace Eval

/-- DEFAULT_FEATURE_COLS of eval.py line 52. -/
def DEFAULT_FEATURE_COLS : List String := ["mean", "stddev", "weighted_mean", "trend"]

/-- The metadata JSON file as read by eval.py: the feature_cols entry
is none when the key is missing or its value is not a list (both make
the isinstance check at eval.py line 81 fail). -/
structure MetaFile where
  feature_cols : Option (List String)
deriving DecidableEq

/-- load_feature_cols_from_metadata (eval.py lines 67 to 84): default
when the file is missing; otherwise default when the feature_cols
entry is missing, not a list, or empty (falsy); otherwise the stored
list. -/
def load_feature_cols_from_metadata (metaFile : Option MetaFile) : List String :=
  match metaFile with
  | none => DEFAULT_FEATURE_COLS
  | some mf =>
    match mf.feature_cols with
    | none => DEFAULT_FEATURE_COLS
    | some cols => if cols.isEmpty then DEFAULT_FEATURE_COLS else cols

/-- One row of the load_labeled_rows query (eval.py lines 103 to 123):
identity, position, the four feature columns and the non-null label.
The stddev field holds the stored stddev column (the population
variance under this development's model). -/
structure EvalRow where
  player_id : ℕ
  as_of_game_date : ℕ
  position : String
  mean : ℚ
  stddev : ℚ
  weighted_mean : ℚ
  trend : ℚ
  label_actual : ℚ
deriving DecidableEq

/-- The failure modes of eval.py main, in program order: missing
artifact (line 215), empty query result (line 127), missing expected
columns (line 139), TEST_FRAC validation (line 146), and the
ValueError scikit-learn raises when metrics are computed on an empty
test slice. -/
inductive EvalError
  | artifactMissing
  | noLabeledRows
  | missingColumns
  | invalidTestFrac
  | emptyTestMetrics
deriving DecidableEq

/-- The columns of the evaluation DataFrame (the SELECT list of
eval.py lines 105 to 113). -/
def evalColumns : List String :=
  ["player_id", "as_of_game_date", "position", "mean", "stddev",
   "weighted_mean", "trend", "label_actual"]

/-- Column access on an evaluation row by column name. -/
def EvalRow.col (r : EvalRow) (c : String) : Option ℚ :=
  if c = "mean" then some r.mean
  else if c = "stddev" then some r.stddev
  else if c = "weighted_mean" then some r.weighted_mean
  else if c = "trend" then some r.trend
  else if c = "label_actual" then some r.label_actual
  else none

/-- The position allow-list of the rec_yds eligible-population filter
(eval.py line 134). -/
def eligible_positions : List String := ["WR", "TE", "RB", "FB"]

/-- Ordering of the evaluation query's ORDER BY clause (eval.py line
120): as_of_game_date ascending, then player_id ascending. -/
def rowLE (a b : EvalRow) : Prop :=
  a.as_of_game_date < b.as_of_game_date ∨
    (a.as_of_game_date = b.as_of_game_date ∧ a.player_id ≤ b.player_id)

instance : DecidableRel rowLE :=
  fun _ _ => by unfold rowLE; infer_instance

/-- load_labeled_rows (eval.py lines 87 to 141): SystemExit on an
empty query result, then the market-specific population filter, then
the expected-columns check.  The raw argument stands for the query
result, which the SQL ORDER BY returns sorted by rowLE. -/
def load_labeled_rows (market_code : String) (feature_cols : List String)
    (raw : List EvalRow) : Except EvalError (List EvalRow) :=
  if raw.isEmpty then .error .noLabeledRows
  else
    let df :=
      if market_code = "rec_yds" then raw.filter (fun r => eligible_positions.contains r.position)
      else raw
    if (feature_cols ++ ["label_actual"]).all (fun c => evalColumns.contains c) then .ok df
    else .error .missingColumns

/-- The cutoff of time_split (eval.py lines 153 and 154):
int(n * (1 - test_frac)) — truncation equals floor since the product
is nonnegative under the validated test_frac — clamped to [1, n - 1]
over the integers, as in Python. -/
def cutoff (n : ℕ) (test_frac : ℚ) : ℤ :=
  max 1 (min (Int.floor ((n : ℚ) * (1 - test_frac))) ((n : ℤ) - 1))

/-- time_split (eval.py lines 143 to 158): SystemExit unless
0 < test_frac < 0.8, else earlier rows (up to the cutoff) train and
later rows test. -/
def time_split (df : List EvalRow) (test_frac : ℚ) :
    Except EvalError (List EvalRow × List EvalRow) :=
  if test_frac ≤ 0 ∨ (4 / 5 : ℚ) ≤ test_frac then .error .invalidTestFrac
  else .ok (df.take (cutoff df.length test_frac).toNat, df.drop (cutoff df.length test_frac).toNat)

/-- Mean absolute error as computed by sklearn.metrics on the test
slice; scikit-learn raises ValueError on empty inputs. -/
def compute_mae (preds ys : List ℚ) : Except EvalError ℚ :=
  if preds.isEmpty then .error .emptyTestMetrics
  else .ok (((preds.zip ys).map (fun p => |p.1 - p.2|)).sum / preds.length)

/-- Feature-vector assembly for one row in the feature_cols order
(eval.py line 222, test_df[feature_cols]). -/
def featuresOf (feature_cols : List String) (r : EvalRow) : List ℚ :=
  feature_cols.map (fun c => (r.col c).getD 0)

/-- The parts of the JSON evaluation report the claims are about:
the feature-column order, the two time slices (the scored field holds
exactly the rows entering the reported test metrics), and the model
and baseline MAE.  The sqrt-based rmse and r2 are not modelled. -/
structure EvalReport where
  feature_cols : List String
  rows_total : ℕ
  train_refs : List EvalRow
  scored : List EvalRow
  mae_model : ℚ
  mae_baseline : ℚ
deriving DecidableEq

/-- eval.py main in program order: load feature columns from metadata,
check the artifact exists, load and filter labeled rows, time-split,
score the test slice with the (opaque) model and with the
weighted-mean baseline. -/
def eval_job (metaFile : Option MetaFile) (artifactExists : Bool) (market_code : String)
    (raw : List EvalRow) (test_frac : ℚ) (predict : List ℚ → ℚ) :
    Except EvalError EvalReport :=
  let feature_cols := load_feature_cols_from_metadata metaFile
  if !artifactExists then .error .artifactMissing
  else
    match load_labeled_rows market_code feature_cols raw with
    | .error e => .error e
    | .ok df =>
      match time_split df test_frac with
      | .error e => .error e
      | .ok (train_df, test_df) =>
        let preds := test_df.map (fun r => predict (featuresOf feature_cols r))
        let ys := test_df.map EvalRow.label_actual
        match compute_mae preds ys with
        | .error e => .error e
        | .ok mae =>
          match compute_mae (test_df.map EvalRow.weighted_mean) ys with
          | .error e => .error e
          | .ok mae_base =>
            .ok { feature_cols := feature_cols, rows_total := df.length,
                  train_refs := train_df, scored := test_df,
                  mae_model := mae, mae_baseline := mae_base }

end Eval

/-! ### Serving path (players.py projection_ml, lines 147 to 282) -/

namespace Serve

/-- FEATURE_COLS of players.py line 24: the fixed column list the
serving path uses to assemble the model input. -/
def FEATURE_COLS : List String := ["mean", "stddev", "weighted_mean", "trend"]

/-- The latest-features query result (players.py lines 223 to 234). -/
structure FeatSnapshot where
  as_of_game_date : ℕ
  opponent : String
  mean : ℚ
  stddev : ℚ
  weighted_mean : ℚ
  trend : ℚ
deriving DecidableEq

/-- Column access on a feature snapshot by column name. -/
def FeatSnapshot.col (r : FeatSnapshot) (c : String) : Option ℚ :=
  if c = "mean" then some r.mean
  else if c = "stddev" then some r.stddev
  else if c = "weighted_mean" then some r.weighted_mean
  else if c = "trend" then some r.trend
  else none

/-- The HTTPException outcomes of projection_ml in program order:
404 player, 404 market, 404 active model, 400 lookback mismatch,
500 artifact missing, 404 features. -/
inductive ApiError
  | playerNotFound
  | unknownMarket
  | noActiveModel
  | lookbackMismatch (active requested : ℕ)
  | artifactMissing
  | noFeatures
deriving DecidableEq

/-- The ml_projections row the endpoint upserts (players.py lines
247 to 268). -/
structure MlProjectionRow where
  player_id : ℕ
  market_code : String
  model_name : String
  lookback : ℕ
  as_of_game_date : ℕ
  prediction : ℚ
  features : List (String × ℚ)
deriving DecidableEq

/-- A successful projection: the computed prediction and the record
written to ml_projections. -/
structure PredOutcome where
  prediction : ℚ
  record : MlProjectionRow
deriving DecidableEq

/-- projection_ml (players.py lines 147 to 282) as a pure function of
its collaborators: player existence, the prop_markets table, the
active_models table, artifact-file existence by path, the latest
feature snapshot for the player/market/lookback, and the loaded
model's predict function.  The checks run in source order; in the
error cases nothing after the failing check happens, so an error
result carries no prediction and no written record. -/
def projection_ml (playerExists : Bool) (markets : List Market)
    (activeTbl : List ActiveModelRow) (artifactExists : String → Bool)
    (latestFeat : Option FeatSnapshot) (predict : List ℚ → ℚ)
    (player_id : ℕ) (market_code : String) (lookback : ℕ) :
    Except ApiError PredOutcome :=
  if !playerExists then .error .playerNotFound
  else
    match markets.find? (fun m => decide (m.code = market_code)) with
    | none => .error .unknownMarket
    | some m =>
      match get_active activeTbl m.id with
      | none => .error .noActiveModel
      | some am =>
        if am.lookback ≠ lookback then .error (.lookbackMismatch am.lookback lookback)
        else if !(artifactExists am.artifact_path) then .error .artifactMissing
        else
          match latestFeat with
          | none => .error .noFeatures
          | some feat =>
            let features := FEATURE_COLS.map (fun c => (c, (FeatSnapshot.col feat c).getD 0))
            let pred := predict (features.map Prod.snd)
            .ok { prediction := pred
                , record := { player_id := player_id, market_code := market_code,
                              model_name := am.model_name, lookback := lookback,
                              as_of_game_date := feat.as_of_game_date,
                              prediction := pred, features := features } }

end Serve

end PropML

namespace PropML

/-! ### Helper lemmas for the window statistics -/

/-- Gauss sum over the regression indices 1..n. -/
lemma sum_range_cast (n : ℕ) :
    ((List.range n).map (fun i : ℕ => ((i : ℚ) + 1))).sum = ((n : ℚ) * ((n : ℚ) + 1)) / 2 := by
  induction n with
  | zero => simp
  | succ m ih =>
      rw [List.range_succ, List.map_append, List.sum_append, ih]
      push_cast
      simp
      ring

/-- Gauss sum of squares over the regression indices 1..n. -/
lemma sum_range_sq_cast (n : ℕ) :
    ((List.range n).map (fun i : ℕ => ((i : ℚ) + 1) ^ 2)).sum = ((n : ℚ) * ((n : ℚ) + 1) * (2 * (n : ℚ) + 1)) / 6 := by
  induction n with
  | zero => simp
  | succ m ih =>
      rw [List.range_succ, List.map_append, List.sum_append, ih]
      push_cast
      simp
      ring

/-- Expansion of a centred sum of squares. -/
lemma sum_sq_dev (l : List ℚ) (c : ℚ) :
    (l.map (fun x => (x - c) ^ 2)).sum
      = (l.map (fun x => x ^ 2)).sum - 2 * c * l.sum + l.length * c ^ 2 := by
  induction l with
  | nil => simp
  | cons a t ih =>
      simp only [List.map_cons, List.sum_cons, ih, List.length_cons]
      push_cast
      ring

/-- Closed form of the trend-slope denominator: the index variance sum
for x = 1..n equals n(n+1)(n-1)/12. -/
lemma trend_den_closed (n : ℕ) :
    _trend_den n = (n : ℚ) * ((n : ℚ) + 1) * ((n : ℚ) - 1) / 12 := by
  rcases Nat.eq_zero_or_pos n with h | h
  · subst h; simp [_trend_den]
  · have hn : ((n : ℚ)) ≠ 0 := by positivity
    unfold _trend_den
    rw [sum_sq_dev]
    have hsq : (((List.range n).map (fun i : ℕ => ((i : ℚ) + 1))).map (fun x : ℚ => x ^ 2)).sum
        = ((n : ℚ) * ((n : ℚ) + 1) * (2 * (n : ℚ) + 1)) / 6 := by
      rw [List.map_map]
      exact sum_range_sq_cast n
    rw [hsq, sum_range_cast]
    simp only [List.length_map, List.length_range]
    field_simp
    ring

/-- For a non-degenerate window the index variance is nonzero: the
denominator vanishes exactly at n = 1. -/
lemma trend_den_zero_iff (n : ℕ) (h : 1 ≤ n) : _trend_den n = 0 ↔ n = 1 := by
  rw [trend_den_closed]
  constructor
  · intro h0
    rcases div_eq_zero_iff.mp h0 with h12 | h12
    · rcases mul_eq_zero.mp h12 with h3 | h3
      · rcases mul_eq_zero.mp h3 with h4 | h4
        · exact absurd (Nat.cast_eq_zero.mp h4) (by omega)
        · exfalso
          have : (0 : ℚ) < (n : ℚ) + 1 := by positivity
          simp [h4] at this
      · have : ((n : ℚ)) = 1 := by linarith [sub_eq_zero.mp h3]
        exact_mod_cast this
    · norm_num at h12
  · rintro rfl; norm_num

end PropML

namespace PropML

/-- C2: for every non-empty window w of size n the four window
statistics equal their reference definitions: the mean is the sum over
n; the (squared) population standard deviation is the centred
sum of squares over divisor n; the weighted mean is the dot product
with weights 1..n (most recent weight n) over the weight sum
n(n+1)/2; the trend is the OLS slope of value against index 1..n,
whose denominator vanishes exactly when n = 1, in which case the slope
is 0.  Concretely the window [10, 20, 30] has mean 20, squared stddev
200/3 (so stddev is about 8.165, strictly between 8.1649 and 8.165)
and weighted mean 70/3 = 23.333... . -/
theorem c2_window_statistics (w : List ℚ) (hw : w ≠ []) :
    _mean w * (w.length : ℚ) = w.sum
    ∧ _stddev_pop_sq w * (w.length : ℚ) = (w.map (fun x => (x - _mean w) ^ 2)).sum
    ∧ _weighted_mean_recent w * ((w.length : ℚ) * ((w.length : ℚ) + 1) / 2)
        = ((w.zip ((List.range w.length).map (fun i : ℕ => ((i : ℚ) + 1)))).map
            (fun p => p.1 * p.2)).sum
    ∧ (_trend_den w.length = 0 ↔ w.length = 1)
    ∧ (w.length = 1 → _trend_slope w = 0)
    ∧ (1 < w.length → _trend_slope w * _trend_den w.length = _trend_num w)
    ∧ _mean [(10 : ℚ), 20, 30] = 20
    ∧ _stddev_pop_sq [(10 : ℚ), 20, 30] = 200 / 3
    ∧ ((81649 : ℚ) / 10000) ^ 2 < 200 / 3
    ∧ (200 / 3 : ℚ) < ((8165 : ℚ) / 1000) ^ 2
    ∧ _weighted_mean_recent [(10 : ℚ), 20, 30] = 70 / 3 := by
  have hlen : 1 ≤ w.length := List.length_pos.mpr hw
  have hn : ((w.length : ℚ)) ≠ 0 := by
    have : 0 < w.length := hlen
    positivity
  refine ⟨?_, ?_, ?_, ?_, ?_, ?_, ?_, ?_, ?_, ?_, ?_⟩
  · exact div_mul_cancel₀ _ hn
  · exact div_mul_cancel₀ _ hn
  · show ((w.zip ((List.range w.length).map (fun i : ℕ => ((i : ℚ) + 1)))).map
        (fun p => p.1 * p.2)).sum
      / ((List.range w.length).map (fun i : ℕ => ((i : ℚ) + 1))).sum * _ = _
    rw [sum_range_cast]
    refine div_mul_cancel₀ _ ?_
    have h1 : (0 : ℚ) < (w.length : ℚ) := by positivity
    positivity
  · exact trend_den_zero_iff w.length hlen
  · intro h1
    have hden : _trend_den w.length = 0 := (trend_den_zero_iff w.length hlen).mpr h1
    simp [_trend_slope, hden]
  · intro h2
    have hden : _trend_den w.length ≠ 0 := fun h0 =>
      absurd ((trend_den_zero_iff w.length hlen).mp h0) (by omega)
    simp only [_trend_slope, if_neg hden]
    exact div_mul_cancel₀ _ hden
  · norm_num [_mean]
  · norm_num [_stddev_pop_sq, _mean]
  · norm_num
  · norm_num
  · norm_num [_weighted_mean_recent, List.range_succ]

/-- Witness for C2: the non-emptiness hypothesis is discharged at the
concrete window [10, 20, 30], whose squared population standard
deviation is 200/3. -/
theorem c2_window_statistics_witness :
    _stddev_pop_sq [(10 : ℚ), 20, 30] = 200 / 3 :=
  (c2_window_statistics [(10 : ℚ), 20, 30] (by simp)).2.2.2.2.2.2.2.1

end PropML

namespace PropML

/-! ### Helper lemmas for the windowing loop -/

/-- A filterMap whose function is total on the list is a map. -/
lemma filterMap_eq_map_of_forall {α β : Type} (l : List α) (f : α → Option β) (g : α → β)
    (h : ∀ a ∈ l, f a = some (g a)) : l.filterMap f = l.map g := by
  induction l with
  | nil => simp
  | cons a t ih =>
      rw [List.filterMap_cons, h a (by simp), List.map_cons,
        ih (fun b hb => h b (List.mem_cons_of_mem a hb))]

/-- Characterization of the windowing loop when at least lookback
observations exist: it is the loop body mapped over the anchor indices
lookback, lookback + 1, ..., length - 1. -/
lemma build_features_eq (pid mid lb : ℕ) (games : List Obs) (h : lb ≤ games.length) :
    build_features pid mid lb games
      = (List.range' lb (games.length - lb)).map (rowAt pid mid lb games) := by
  unfold build_features
  have hsplit : List.range' 0 lb 1 ++ List.range' lb (games.length - lb) 1
      = List.range' 0 games.length 1 := by
    have h2 := List.range'_append 0 lb (games.length - lb) 1
    simpa [Nat.sub_add_cancel h] using h2
  rw [List.range_eq_range', ← hsplit, List.filterMap_append]
  have hnil : (List.range' 0 lb 1).filterMap (fun i =>
      if i < lb then none
      else (games[i]?).map fun g =>
        statRow pid mid lb g (((games.map Obs.y).drop (i - lb)).take lb)) = [] := by
    rw [List.filterMap_eq_nil_iff]
    intro i hi
    have : i < lb := by
      have := (List.mem_range'_1.mp hi).2
      omega
    simp [this]
  rw [hnil, List.nil_append]
  refine filterMap_eq_map_of_forall _ _ _ ?_
  intro i hi
  rcases List.mem_range'_1.mp hi with ⟨h1, h2⟩
  have hiL : i < games.length := by omega
  have hnot : ¬ i < lb := by omega
  have hget : games[i]? = some (games.getD i ⟨0, "", 0⟩) := by
    rw [List.getD_eq_getElem?_getD, List.getElem?_eq_getElem hiL]
    simp
  simp only [hnot, if_false, hget, Option.map_some]
  rfl

/-- C1: with lookback ≥ 1, the windowing loop produces exactly one
FeatureRow per anchor index i with lookback ≤ i < L (so L - lookback
rows in total, and none for indices 0..lookback-1); the j-th produced
row (anchor index i = lookback + j) is anchored at the date and
opponent of the observation at index i and is computed over the window
of exactly the lookback values at indices i - lookback .. i - 1, whose
k-th element is the value at index j + k < i — the value at index i or
any later index never enters.  In particular 8 observations with
lookback 5 yield exactly 3 rows. -/
theorem c1_windower_no_leakage (pid mid lb : ℕ) (hlb : 1 ≤ lb) (games : List Obs) :
    (build_features pid mid lb games).length = games.length - lb
    ∧ (∀ j g, games[lb + j]? = some g →
        (build_features pid mid lb games)[j]? =
          some (statRow pid mid lb g (((games.map Obs.y).drop j).take lb)))
    ∧ (∀ j k, k < lb → (((games.map Obs.y).drop j).take lb)[k]? = (games.map Obs.y)[j + k]?)
    ∧ (∀ j, lb + j < games.length → (((games.map Obs.y).drop j).take lb).length = lb)
    ∧ (∀ j k, k < lb → j + k < lb + j)
    ∧ (games.length = 8 → lb = 5 → (build_features pid mid lb games).length = 3) := by
  have hlen : (build_features pid mid lb games).length = games.length - lb := by
    rcases le_or_lt lb games.length with h | h
    · rw [build_features_eq pid mid lb games h, List.length_map, List.length_range']
    · have hnil : build_features pid mid lb games = [] := by
        unfold build_features
        rw [List.filterMap_eq_nil_iff]
        intro i hi
        have : i < lb := by
          have := List.mem_range.mp hi
          omega
        simp [this]
      rw [hnil]
      simp only [List.length_nil]
      omega
  refine ⟨hlen, ?_, ?_, ?_, ?_, ?_⟩
  · intro j g hg
    rcases List.getElem?_eq_some.mp hg with ⟨hjL, hval⟩
    have hle : lb ≤ games.length := by omega
    rw [build_features_eq pid mid lb games hle, List.getElem?_map,
      List.getElem?_range' lb 1 (by omega : j < games.length - lb)]
    have harg : lb + 1 * j = lb + j := by omega
    rw [harg]
    have hrow : rowAt pid mid lb games (lb + j)
        = statRow pid mid lb g (((games.map Obs.y).drop j).take lb) := by
      unfold rowAt
      rw [List.getD_eq_getElem?_getD, hg, Nat.add_sub_cancel_left]
      rfl
    rw [Option.map_some', hrow]
  · intro j k hk
    rw [List.getElem?_take, if_pos hk, List.getElem?_drop]
  · intro j hj
    rw [List.length_take, List.length_drop, List.length_map]
    omega
  · intro j k hk
    omega
  · intro h8 h5
    rw [hlen, h8, h5]

/-- Witness for C1: a player with 8 chronologically ordered
observations and lookback 5 yields exactly 3 feature rows. -/
theorem c1_windower_no_leakage_witness :
    (build_features 1 2 5
      [⟨1, "A", 3⟩, ⟨2, "B", 7⟩, ⟨3, "C", 4⟩, ⟨4, "D", 9⟩,
       ⟨5, "E", 2⟩, ⟨6, "F", 8⟩, ⟨7, "G", 5⟩, ⟨8, "H", 6⟩]).length = 3 :=
  (c1_windower_no_leakage 1 2 5 (by decide)
    [⟨1, "A", 3⟩, ⟨2, "B", 7⟩, ⟨3, "C", 4⟩, ⟨4, "D", 9⟩,
     ⟨5, "E", 2⟩, ⟨6, "F", 8⟩, ⟨7, "G", 5⟩, ⟨8, "H", 6⟩]).2.2.2.2.2 rfl rfl

end PropML

namespace PropML

/-! ### Helper lemmas for the feature-store upsert -/

lemma setStats_key (r : NewFeatureRow) (e : FeatEntry) : (setStats r e).key = e.key := rfl

lemma setStats_label (r : NewFeatureRow) (e : FeatEntry) :
    (setStats r e).label_actual = e.label_actual := rfl

/-- Looking up a key through a key-preserving row transformation. -/
lemma lookupKey_map_keyfix (tbl : List FeatEntry) (f : FeatEntry → FeatEntry)
    (hkey : ∀ e, (f e).key = e.key) (k : FeatKey) :
    lookupKey (tbl.map f) k = (lookupKey tbl k).map f := by
  unfold lookupKey
  have hp : ((fun e => decide (e.key = k)) ∘ f) = (fun e => decide (e.key = k)) := by
    funext e
    simp [Function.comp, hkey e]
  rw [List.find?_map, hp]

/-- Key-presence agrees with lookup success. -/
lemma hasKey_iff_lookup (tbl : List FeatEntry) (k : FeatKey) :
    hasKey tbl k = (lookupKey tbl k).isSome := by
  unfold hasKey lookupKey
  rw [Bool.eq_iff_iff, List.any_eq_true, List.find?_isSome]

lemma lookupKey_key (tbl : List FeatEntry) (k : FeatKey) (e : FeatEntry)
    (h : lookupKey tbl k = some e) : e.key = k := by
  unfold lookupKey at h
  have := List.find?_some h
  simpa using this

/-- Point behaviour of one execution of the upsert statement: at the
row's natural key an existing entry gets its four statistics
overwritten and a missing entry is inserted with a NULL label; every
other key is untouched. -/
lemma lookupKey_upsert_row (tbl : List FeatEntry) (r : NewFeatureRow) (k : FeatKey) :
    lookupKey (upsert_feature_row tbl r) k
      = if k = r.key then
          some (match lookupKey tbl r.key with
                | some e => setStats r e
                | none => freshEntry r)
        else lookupKey tbl k := by
  unfold upsert_feature_row
  by_cases hany : tbl.any (fun e => decide (e.key = r.key)) = true
  · rw [if_pos hany]
    rw [lookupKey_map_keyfix tbl _
      (fun e => by by_cases h : e.key = r.key <;> simp [h, setStats_key]) k]
    have hsome : (lookupKey tbl r.key).isSome = true := by
      rw [← hasKey_iff_lookup]
      exact hany
    by_cases hk : k = r.key
    · rcases Option.isSome_iff_exists.mp hsome with ⟨e, he⟩
      rw [if_pos hk, hk, he, Option.map_some']
      have hek : e.key = r.key := lookupKey_key tbl r.key e he
      simp [hek]
    · rw [if_neg hk]
      cases hfind : lookupKey tbl k with
      | none => simp
      | some e =>
          have hek : e.key = k := lookupKey_key tbl k e hfind
          have : ¬ e.key = r.key := by
            rw [hek]
            exact hk
          simp [Option.map_some', this]
  · rw [if_neg hany]
    have hnone : lookupKey tbl r.key = none := by
      have : ¬ (lookupKey tbl r.key).isSome = true := by
        rw [← hasKey_iff_lookup]
        exact hany
      exact Option.not_isSome_iff_eq_none.mp this
    by_cases hk : k = r.key
    · subst hk
      rw [if_pos rfl, hnone]
      unfold lookupKey at hnone ⊢
      rw [List.find?_append, hnone, Option.none_or]
      simp [freshEntry]
    · rw [if_neg hk]
      unfold lookupKey
      rw [List.find?_append]
      have : List.find? (fun e => decide (e.key = k)) [freshEntry r] = none := by
        simp [freshEntry]
        exact fun h => hk h.symm
      rw [this, Option.or_none]

/-- The upsert never touches the label column of any key. -/
lemma labelAt_upsert_row (tbl : List FeatEntry) (r : NewFeatureRow) (k : FeatKey) :
    labelAt (upsert_feature_row tbl r) k = labelAt tbl k := by
  unfold labelAt
  rw [lookupKey_upsert_row]
  by_cases hk : k = r.key
  · rw [if_pos hk, hk]
    cases hfind : lookupKey tbl r.key with
    | none => simp [freshEntry]
    | some e => simp [setStats_label]
  · rw [if_neg hk]

/-- Point characterization of the whole build_features write phase:
the last batch row for a key wins its four statistics, the label is
whatever the store already had at that key, and untouched keys keep
their entry. -/
lemma lookupKey_upsert_batch (rows : List NewFeatureRow) (tbl : List FeatEntry) (k : FeatKey) :
    lookupKey (upsert_features tbl rows) k
      = match rows.reverse.find? (fun r => decide (r.key = k)) with
        | some r => some { key := k, mean := r.mean, stddev := r.stddev,
                           weighted_mean := r.weighted_mean, trend := r.trend,
                           label_actual := labelAt tbl k }
        | none => lookupKey tbl k := by
  induction rows generalizing tbl with
  | nil => simp [upsert_features]
  | cons r rs ih =>
      have hstep : upsert_features tbl (r :: rs) = upsert_features (upsert_feature_row tbl r) rs := rfl
      rw [hstep, ih, List.reverse_cons, List.find?_append, labelAt_upsert_row]
      cases hf : rs.reverse.find? (fun r => decide (r.key = k)) with
      | some r' => rfl
      | none =>
          simp only [Option.none_or]
          by_cases hk : r.key = k
          · have hsing : List.find? (fun r => decide (r.key = k)) [r] = some r := by
              simp [hk]
            rw [hsing, lookupKey_upsert_row]
            rw [if_pos hk.symm]
            cases hfind : lookupKey tbl r.key with
            | none =>
                have : labelAt tbl k = none := by
                  unfold labelAt
                  rw [← hk, hfind]
                  rfl
                rw [this]
                subst hk
                rfl
            | some e =>
                have hek : e.key = r.key := lookupKey_key tbl r.key e hfind
                have : labelAt tbl k = e.label_actual := by
                  unfold labelAt
                  rw [← hk, hfind]
                  rfl
                rw [this]
                subst hk
                cases e
                simp_all [setStats]
          · have hsing : List.find? (fun r => decide (r.key = k)) [r] = none := by
              simp [hk]
            rw [hsing, lookupKey_upsert_row]
            rw [if_neg (fun h => hk h.symm)]

/-- Key presence after one upsert. -/
lemma hasKey_upsert_row (tbl : List FeatEntry) (r : NewFeatureRow) (k : FeatKey) :
    hasKey (upsert_feature_row tbl r) k = (hasKey tbl k || decide (r.key = k)) := by
  rw [hasKey_iff_lookup, hasKey_iff_lookup, lookupKey_upsert_row]
  by_cases hk : k = r.key
  · subst hk
    simp
  · have : ¬ r.key = k := fun h => hk h.symm
    simp [hk, this]

/-- Key presence after the whole write phase: the stored key set is
the old key set united with the batch's keys. -/
lemma hasKey_upsert_batch (rows : List NewFeatureRow) (tbl : List FeatEntry) (k : FeatKey) :
    hasKey (upsert_features tbl rows) k
      = (hasKey tbl k || rows.any (fun r => decide (r.key = k))) := by
  induction rows generalizing tbl with
  | nil => simp [upsert_features]
  | cons r rs ih =>
      have hstep : upsert_features tbl (r :: rs) = upsert_features (upsert_feature_row tbl r) rs := rfl
      rw [hstep, ih, hasKey_upsert_row, List.any_cons, Bool.or_assoc]

/-- An upsert whose key already exists leaves the key column
unchanged. -/
lemma keys_upsert_row_present (tbl : List FeatEntry) (r : NewFeatureRow)
    (h : hasKey tbl r.key = true) :
    (upsert_feature_row tbl r).map FeatEntry.key = tbl.map FeatEntry.key := by
  unfold upsert_feature_row
  have h2 : (tbl.any fun e => decide (e.key = r.key)) = true := h
  rw [if_pos h2, List.map_map]
  congr 1
  funext e
  by_cases hk : e.key = r.key <;> simp [Function.comp, hk, setStats_key]

/-- A batch whose keys are all already present leaves the key column
unchanged. -/
lemma keys_upsert_batch_present (rows : List NewFeatureRow) (tbl : List FeatEntry)
    (h : ∀ r ∈ rows, hasKey tbl r.key = true) :
    (upsert_features tbl rows).map FeatEntry.key = tbl.map FeatEntry.key := by
  induction rows generalizing tbl with
  | nil => rfl
  | cons r rs ih =>
      have hstep : upsert_features tbl (r :: rs) = upsert_features (upsert_feature_row tbl r) rs := rfl
      rw [hstep]
      have hr := h r (List.mem_cons_self r rs)
      have hrs : ∀ r' ∈ rs, hasKey (upsert_feature_row tbl r) r'.key = true := by
        intro r' hr'
        rw [hasKey_upsert_row, h r' (List.mem_cons_of_mem r hr')]
        rfl
      rw [ih (upsert_feature_row tbl r) hrs, keys_upsert_row_present tbl r hr]

end PropML

namespace PropML

/-- The whole write phase never touches any label. -/
lemma labelAt_upsert_batch (rows : List NewFeatureRow) (tbl : List FeatEntry) (k : FeatKey) :
    labelAt (upsert_features tbl rows) k = labelAt tbl k := by
  induction rows generalizing tbl with
  | nil => rfl
  | cons r rs ih =>
      have hstep : upsert_features tbl (r :: rs) = upsert_features (upsert_feature_row tbl r) rs := rfl
      rw [hstep, ih, labelAt_upsert_row]

/-- C3: the ON CONFLICT upsert overwrites only the four statistic
columns.  For any store and batch: no label at any key changes; the
stored key set becomes the old key set united with the batch keys; a
key written by the batch ends up with the last batch row's statistics
and its previously stored label (none on a fresh insert); an untouched
key keeps its entry; and re-running the same batch changes neither any
lookup nor the stored key column (idempotence of the windowing step's
write phase on unchanged input). -/
theorem c3_feature_upsert_semantics (tbl : List FeatEntry) (rows : List NewFeatureRow) :
    (∀ k, labelAt (upsert_features tbl rows) k = labelAt tbl k)
    ∧ (∀ k, hasKey (upsert_features tbl rows) k
        = (hasKey tbl k || rows.any (fun r => decide (r.key = k))))
    ∧ (∀ k r, rows.reverse.find? (fun r => decide (r.key = k)) = some r →
        lookupKey (upsert_features tbl rows) k
          = some { key := k, mean := r.mean, stddev := r.stddev,
                   weighted_mean := r.weighted_mean, trend := r.trend,
                   label_actual := labelAt tbl k })
    ∧ (∀ k, rows.reverse.find? (fun r => decide (r.key = k)) = none →
        lookupKey (upsert_features tbl rows) k = lookupKey tbl k)
    ∧ (∀ k, lookupKey (upsert_features (upsert_features tbl rows) rows) k
        = lookupKey (upsert_features tbl rows) k)
    ∧ (upsert_features (upsert_features tbl rows) rows).map FeatEntry.key
        = (upsert_features tbl rows).map FeatEntry.key := by
  refine ⟨?_, ?_, ?_, ?_, ?_, ?_⟩
  · intro k
    exact labelAt_upsert_batch rows tbl k
  · intro k
    exact hasKey_upsert_batch rows tbl k
  · intro k r hf
    rw [lookupKey_upsert_batch, hf]
  · intro k hf
    rw [lookupKey_upsert_batch, hf]
  · intro k
    cases hf : rows.reverse.find? (fun r => decide (r.key = k)) with
    | some r =>
        rw [lookupKey_upsert_batch rows (upsert_features tbl rows) k, hf,
          lookupKey_upsert_batch rows tbl k, hf, labelAt_upsert_batch]
    | none =>
        rw [lookupKey_upsert_batch rows (upsert_features tbl rows) k, hf]
  · refine keys_upsert_batch_present rows (upsert_features tbl rows) ?_
    intro r hr
    rw [hasKey_upsert_batch]
    have : rows.any (fun r' => decide (r'.key = r.key)) = true :=
      List.any_eq_true.mpr ⟨r, hr, by simp⟩
    rw [this, Bool.or_true]

/-- Witness for C3: a store holding one labeled row at a key receives
a batch overwriting that key's statistics; the stored entry ends up
with the new statistics and the previously attached label. -/
theorem c3_feature_upsert_semantics_witness :
    lookupKey
      (upsert_features
        [⟨⟨1, 2, 3, "A", 5⟩, 1, 2, 3, 4, some 9⟩]
        [⟨⟨1, 2, 3, "A", 5⟩, 10, 20, 30, 40⟩])
      ⟨1, 2, 3, "A", 5⟩
      = some { key := ⟨1, 2, 3, "A", 5⟩, mean := 10, stddev := 20,
               weighted_mean := 30, trend := 40,
               label_actual := labelAt [⟨⟨1, 2, 3, "A", 5⟩, 1, 2, 3, 4, some 9⟩] ⟨1, 2, 3, "A", 5⟩ } :=
  (c3_feature_upsert_semantics
      [⟨⟨1, 2, 3, "A", 5⟩, 1, 2, 3, 4, some 9⟩]
      [⟨⟨1, 2, 3, "A", 5⟩, 10, 20, 30, 40⟩]).2.2.1
    ⟨1, 2, 3, "A", 5⟩ ⟨⟨1, 2, 3, "A", 5⟩, 10, 20, 30, 40⟩ (by rfl)

end PropML

namespace PropML

/-! ### Helper lemmas for the label attach -/

/-- The per-row effect of the attach_labels UPDATE preserves the
natural key. -/
lemma attach_entry_key (mid : ℕ) (obs : List GameStat) (e : FeatEntry) :
    (if e.key.market_id = mid then
        match matchingStat obs e.key with
        | some o => { e with label_actual := some o.value }
        | none => e
      else e).key = e.key := by
  by_cases h : e.key.market_id = mid
  · cases hm : matchingStat obs e.key <;> simp [h, hm]
  · simp [h]

/-- C4 (amended): the attach_labels UPDATE keeps the row count, sets
label_actual to the matched observation's stat value on exactly the
rows of the market with a matching observation, leaves rows without a
match (or of other markets) byte-identical without error, is
idempotent in effect, and on a re-run with unchanged data reports the
same matched-row count as the first run (PostgreSQL counts every row
matched by the join as updated, whether or not the value changed). -/
theorem c4_label_attach_semantics (mid : ℕ) (obs : List GameStat) (tbl : List FeatEntry) :
    ((attach_labels_table mid obs tbl).length = tbl.length)
    ∧ (∀ (i : ℕ) (e : FeatEntry) (o : GameStat), tbl[i]? = some e → e.key.market_id = mid →
        matchingStat obs e.key = some o →
        (attach_labels_table mid obs tbl)[i]? = some { e with label_actual := some o.value })
    ∧ (∀ (i : ℕ) (e : FeatEntry), tbl[i]? = some e → matchingStat obs e.key = none →
        (attach_labels_table mid obs tbl)[i]? = some e)
    ∧ (∀ (i : ℕ) (e : FeatEntry), tbl[i]? = some e → e.key.market_id ≠ mid →
        (attach_labels_table mid obs tbl)[i]? = some e)
    ∧ attach_labels_table mid obs (attach_labels_table mid obs tbl)
        = attach_labels_table mid obs tbl
    ∧ attach_labels_count mid obs (attach_labels_table mid obs tbl)
        = attach_labels_count mid obs tbl := by
  refine ⟨?_, ?_, ?_, ?_, ?_, ?_⟩
  · unfold attach_labels_table
    rw [List.length_map]
  · intro i e o hi hmkt hmatch
    unfold attach_labels_table
    rw [List.getElem?_map, hi, Option.map_some']
    simp [hmkt, hmatch]
  · intro i e hmatch hnone
    unfold attach_labels_table
    rw [List.getElem?_map, hmatch, Option.map_some']
    by_cases h : e.key.market_id = mid <;> simp [h, hnone]
  · intro i e hi hne
    unfold attach_labels_table
    rw [List.getElem?_map, hi, Option.map_some']
    simp [hne]
  · unfold attach_labels_table
    rw [List.map_map]
    refine List.map_congr_left ?_
    intro e _
    by_cases h : e.key.market_id = mid
    · cases hm : matchingStat obs e.key with
      | some o => simp [Function.comp, h, hm]
      | none => simp [Function.comp, h, hm]
    · simp [Function.comp, h]
  · unfold attach_labels_count attach_labels_table
    rw [List.filter_map, List.length_map]
    congr 1
    refine List.filter_congr ?_
    intro e _
    simp only [Function.comp_apply]
    rw [attach_entry_key mid obs e]

/-- Witness for C4: one feature row of market 1 with a matching
observation gets its label set to that observation's value. -/
theorem c4_label_attach_semantics_witness :
    (attach_labels_table 1 [⟨7, 3, "A", 55⟩]
        [⟨⟨7, 1, 3, "A", 5⟩, 0, 0, 0, 0, none⟩])[0]?
      = some ⟨⟨7, 1, 3, "A", 5⟩, 0, 0, 0, 0, some 55⟩ :=
  (c4_label_attach_semantics 1 [⟨7, 3, "A", 55⟩]
      [⟨⟨7, 1, 3, "A", 5⟩, 0, 0, 0, 0, none⟩]).2.1
    0 ⟨⟨7, 1, 3, "A", 5⟩, 0, 0, 0, 0, none⟩ ⟨7, 3, "A", 55⟩ (by rfl) (by rfl) (by rfl)

/-- Counterexample to C4 as stated: re-running attach_labels when no
new observations exist is a no-op in effect but does NOT report zero
rows updated — on a store whose single matching row was already
labeled by the first run, the second run still reports 1 row
updated. -/
theorem c4_label_attach_rerun_count_counterexample :
    attach_labels_count 1 [⟨7, 3, "A", 55⟩]
        (attach_labels_table 1 [⟨7, 3, "A", 55⟩]
          [⟨⟨7, 1, 3, "A", 5⟩, 0, 0, 0, 0, none⟩]) = 1
    ∧ attach_labels_count 1 [⟨7, 3, "A", 55⟩]
        (attach_labels_table 1 [⟨7, 3, "A", 55⟩]
          [⟨⟨7, 1, 3, "A", 5⟩, 0, 0, 0, 0, none⟩]) ≠ 0 := by
  have h1 : attach_labels_count 1 [⟨7, 3, "A", 55⟩]
      (attach_labels_table 1 [⟨7, 3, "A", 55⟩]
        [⟨⟨7, 1, 3, "A", 5⟩, 0, 0, 0, 0, none⟩]) = 1 := by rfl
  exact ⟨h1, fun h => Nat.one_ne_zero (h1.symm.trans h)⟩

end PropML

namespace PropML

/-- C5: given a resolvable market, the training job fails with
InsufficientData — producing no artifact, no metadata, no history row
and no active pointer, since the error carries no output — exactly
when fewer than 10 feature rows with non-null label_actual exist for
the market and lookback; with 10 or more it succeeds and persists all
four: the artifact at its deterministic path, the metadata record
carrying the ordered feature-column list, the TrainedModel history
row, and the ActiveModel pointer set to this run's values. -/
theorem c5_training_minimum_rows (markets : List Market) (tbl : List FeatEntry)
    (market_code model_name artifact_dir : String) (lookback : ℕ) (m : Market)
    (hm : markets.find? (fun m => decide (m.code = market_code)) = some m) :
    ((Train.labeled_rows tbl m.id lookback).length < 10 →
      Train.train_job markets tbl market_code model_name artifact_dir lookback
        = Except.error
            (Train.TrainError.insufficientData (Train.labeled_rows tbl m.id lookback).length))
    ∧ (10 ≤ (Train.labeled_rows tbl m.id lookback).length →
      Train.train_job markets tbl market_code model_name artifact_dir lookback
        = Except.ok
            { artifact_path := artifact_dir ++ "/" ++ model_name ++ "_" ++ market_code
                ++ "_lb" ++ toString lookback ++ ".joblib"
            , meta := { model_name := model_name, market_code := market_code,
                        market_name := m.name, lookback := lookback,
                        feature_cols := Train.FEATURE_COLS,
                        train_rows := (Train.labeled_rows tbl m.id lookback).length
                          - Train.sklearn_test_count (Train.labeled_rows tbl m.id lookback).length,
                        test_rows := Train.sklearn_test_count
                          (Train.labeled_rows tbl m.id lookback).length,
                        artifact_path := artifact_dir ++ "/" ++ model_name ++ "_" ++ market_code
                          ++ "_lb" ++ toString lookback ++ ".joblib" }
            , history := { model_name := model_name, market_id := m.id, lookback := lookback,
                           artifact_path := artifact_dir ++ "/" ++ model_name ++ "_" ++ market_code
                             ++ "_lb" ++ toString lookback ++ ".joblib",
                           train_rows := (Train.labeled_rows tbl m.id lookback).length
                             - Train.sklearn_test_count (Train.labeled_rows tbl m.id lookback).length,
                           test_rows := Train.sklearn_test_count
                             (Train.labeled_rows tbl m.id lookback).length }
            , active := { market_id := m.id, lookback := lookback,
                          model_name := model_name,
                          artifact_path := artifact_dir ++ "/" ++ model_name ++ "_" ++ market_code
                            ++ "_lb" ++ toString lookback ++ ".joblib" } }) := by
  constructor
  · intro h
    simp [Train.train_job, hm, h]
  · intro h
    have hn : ¬ (Train.labeled_rows tbl m.id lookback).length < 10 := by omega
    simp [Train.train_job, hm, hn]

/-- Witness for C5: a market resolvable as rec_yds with exactly 9
labeled rows fails with InsufficientData. -/
theorem c5_training_minimum_rows_witness :
    Train.train_job [⟨1, "rec_yds", "receiving_yards", "Receiving Yards"⟩]
        (List.replicate 9 ⟨⟨1, 1, 1, "A", 5⟩, 0, 0, 0, 0, some 1⟩)
        "rec_yds" "ridge_v1" "/artifacts" 5
      = Except.error (Train.TrainError.insufficientData
          (Train.labeled_rows
            (List.replicate 9 ⟨⟨1, 1, 1, "A", 5⟩, 0, 0, 0, 0, some 1⟩) 1 5).length) :=
  (c5_training_minimum_rows [⟨1, "rec_yds", "receiving_yards", "Receiving Yards"⟩]
      (List.replicate 9 ⟨⟨1, 1, 1, "A", 5⟩, 0, 0, 0, 0, some 1⟩)
      "rec_yds" "ridge_v1" "/artifacts" 5
      ⟨1, "rec_yds", "receiving_yards", "Receiving Yards"⟩ (by rfl)).1 (by decide)

end PropML

namespace PropML

/-! ### Helper lemmas for the active-model registry -/

/-- Inversion of a successful training run: the active pointer it
writes carries exactly this run's lookback, model name and artifact
path. -/
lemma train_job_ok_active (markets : List Market) (tbl : List FeatEntry)
    (mc mn ad : String) (lb : ℕ) (out : Train.TrainOutput)
    (h : Train.train_job markets tbl mc mn ad lb = Except.ok out) :
    out.active.lookback = lb ∧ out.active.model_name = mn
      ∧ out.active.artifact_path
          = ad ++ "/" ++ mn ++ "_" ++ mc ++ "_lb" ++ toString lb ++ ".joblib" := by
  unfold Train.train_job at h
  cases hf : markets.find? (fun m => decide (m.code = mc)) with
  | none =>
      rw [hf] at h
      exact absurd h (by simp)
  | some m =>
      rw [hf] at h
      by_cases hlt : (Train.labeled_rows tbl m.id lb).length < 10
      · simp only [hlt, if_true] at h
        exact absurd h (by simp)
      · simp only [hlt, if_false] at h
        cases h
        exact ⟨rfl, rfl, rfl⟩

/-- The update branch of the active_models upsert preserves
market_id. -/
lemma set_active_entry_market (p : ActiveModelRow) (r : ActiveModelRow) :
    (if r.market_id = p.market_id then
        { r with lookback := p.lookback, model_name := p.model_name,
                 artifact_path := p.artifact_path }
      else r).market_id = r.market_id := by
  by_cases h : r.market_id = p.market_id <;> simp [h]

/-- C9: with market_id unique in active_models (the ON CONFLICT
target), the upsert of a successful run preserves that uniqueness, the
market's pointer afterwards carries exactly the run's lookback, model
name and artifact path (last write wins, for any prior pointer state),
every row of the market equals that pointer (at most one), and no
other market's pointer changes; furthermore every successful training
run's pointer carries that run's values. -/
theorem c9_active_model_registry (tblA : List ActiveModelRow) (p : ActiveModelRow)
    (huniq : (tblA.map ActiveModelRow.market_id).Nodup) :
    ((set_active tblA p).map ActiveModelRow.market_id).Nodup
    ∧ get_active (set_active tblA p) p.market_id = some p
    ∧ (∀ r ∈ set_active tblA p, r.market_id = p.market_id → r = p)
    ∧ (∀ mid, mid ≠ p.market_id →
        get_active (set_active tblA p) mid = get_active tblA mid)
    ∧ (∀ (markets : List Market) (tbl : List FeatEntry) (mc mn ad : String) (lb : ℕ)
        (out : Train.TrainOutput),
        Train.train_job markets tbl mc mn ad lb = Except.ok out →
        out.active.lookback = lb ∧ out.active.model_name = mn
          ∧ out.active.artifact_path
              = ad ++ "/" ++ mn ++ "_" ++ mc ++ "_lb" ++ toString lb ++ ".joblib") := by
  refine ⟨?_, ?_, ?_, ?_, ?_⟩
  · unfold set_active
    by_cases hany : (tblA.any fun r => decide (r.market_id = p.market_id)) = true
    · rw [if_pos hany, List.map_map]
      have : (ActiveModelRow.market_id ∘ fun r =>
          if r.market_id = p.market_id then
            { r with lookback := p.lookback, model_name := p.model_name,
                     artifact_path := p.artifact_path }
          else r) = ActiveModelRow.market_id := by
        funext r
        simp only [Function.comp_apply]
        exact set_active_entry_market p r
      rw [this]
      exact huniq
    · rw [if_neg hany, List.map_append]
      have hnotmem : p.market_id ∉ tblA.map ActiveModelRow.market_id := by
        intro hmem
        rcases List.mem_map.mp hmem with ⟨r, hr, hrid⟩
        exact hany (List.any_eq_true.mpr ⟨r, hr, by simp [hrid]⟩)
      simpa using List.Nodup.append huniq (List.nodup_singleton p.market_id)
        (by simpa [List.disjoint_singleton] using hnotmem)
  · unfold set_active get_active
    by_cases hany : (tblA.any fun r => decide (r.market_id = p.market_id)) = true
    · rw [if_pos hany]
      have hfind : (List.find? (fun r => decide (r.market_id = p.market_id)) tblA).isSome := by
        rw [List.find?_isSome]
        simpa [List.any_eq_true] using hany
      rcases Option.isSome_iff_exists.mp hfind with ⟨r, hr⟩
      have hrid : r.market_id = p.market_id := by simpa using List.find?_some hr
      have hpred : ((fun r : ActiveModelRow => decide (r.market_id = p.market_id)) ∘ fun r =>
          if r.market_id = p.market_id then
            { r with lookback := p.lookback, model_name := p.model_name,
                     artifact_path := p.artifact_path }
          else r) = fun r : ActiveModelRow => decide (r.market_id = p.market_id) := by
        funext r
        simp only [Function.comp_apply]
        rw [set_active_entry_market p r]
      rw [List.find?_map, hpred, hr, Option.map_some']
      cases p
      simp_all
    · rw [if_neg hany, List.find?_append]
      have hnone : List.find? (fun r => decide (r.market_id = p.market_id)) tblA = none := by
        rcases hfind : List.find? (fun r => decide (r.market_id = p.market_id)) tblA with _ | r
        · exact hfind
        · exact absurd (List.any_eq_true.mpr
            ⟨r, List.mem_of_find?_eq_some hfind, List.find?_some hfind⟩) hany
      rw [hnone, Option.none_or]
      simp
  · intro r hr hrid
    unfold set_active at hr
    by_cases hany : (tblA.any fun r => decide (r.market_id = p.market_id)) = true
    · rw [if_pos hany] at hr
      rcases List.mem_map.mp hr with ⟨r0, _, hr0⟩
      by_cases h0 : r0.market_id = p.market_id
      · rw [← hr0]
        cases p
        simp_all
      · exfalso
        rw [← hr0] at hrid
        simp only [h0, if_false] at hrid
    · rw [if_neg hany] at hr
      rcases List.mem_append.mp hr with hmem | hmem
      · exact absurd (List.any_eq_true.mpr ⟨r, hmem, by simp [hrid]⟩) hany
      · simpa using hmem
  · intro mid hmid
    unfold set_active get_active
    by_cases hany : (tblA.any fun r => decide (r.market_id = p.market_id)) = true
    · rw [if_pos hany]
      have hpred : ((fun r : ActiveModelRow => decide (r.market_id = mid)) ∘ fun r =>
          if r.market_id = p.market_id then
            { r with lookback := p.lookback, model_name := p.model_name,
                     artifact_path := p.artifact_path }
          else r) = fun r : ActiveModelRow => decide (r.market_id = mid) := by
        funext r
        simp only [Function.comp_apply]
        rw [set_active_entry_market p r]
      rw [List.find?_map, hpred]
      rcases hfind : List.find? (fun r => decide (r.market_id = mid)) tblA with _ | r
      · rw [hfind]
        rfl
      · rw [hfind]
        have hrid : r.market_id = mid := by simpa using List.find?_some hfind
        have : ¬ r.market_id = p.market_id := by
          rw [hrid]
          exact hmid
        simp [Option.map_some', this]
    · rw [if_neg hany, List.find?_append]
      have hsing : List.find? (fun r => decide (r.market_id = mid)) [p] = none := by
        simp [show p.market_id ≠ mid from fun h => hmid h.symm]
      rw [hsing, Option.or_none]
  · intro markets tbl mc mn ad lb out hout
    exact train_job_ok_active markets tbl mc mn ad lb out hout

/-- Witness for C9: upserting a pointer into an empty registry makes
it the unique pointer for its market. -/
theorem c9_active_model_registry_witness :
    get_active (set_active [] ⟨1, 5, "ridge_v1", "/artifacts/m.joblib"⟩) 1
      = some ⟨1, 5, "ridge_v1", "/artifacts/m.joblib"⟩ :=
  (c9_active_model_registry [] ⟨1, 5, "ridge_v1", "/artifacts/m.joblib"⟩ (by simp)).2.1

end PropML

namespace PropML

/-- C7: when the active model for the resolved market exists but its
trained lookback differs from the requested one, projection_ml fails
with the 400 lookback-mismatch validation error before any inference:
the result is the same error for every artifact store, every latest
feature snapshot and every model predict function — so the artifact is
never loaded, no prediction is computed, and no ml_projections record
is written (the error branch carries no prediction outcome). -/
theorem c7_serving_lookback_mismatch (markets : List Market)
    (activeTbl : List ActiveModelRow) (player_id lookback : ℕ) (market_code : String)
    (m : Market) (am : ActiveModelRow)
    (hm : markets.find? (fun m => decide (m.code = market_code)) = some m)
    (ha : get_active activeTbl m.id = some am)
    (hne : am.lookback ≠ lookback) :
    ∀ (artifactExists : String → Bool) (latestFeat : Option Serve.FeatSnapshot)
      (predict : List ℚ → ℚ),
      Serve.projection_ml true markets activeTbl artifactExists latestFeat predict
          player_id market_code lookback
        = Except.error (Serve.ApiError.lookbackMismatch am.lookback lookback) := by
  intro artifactExists latestFeat predict
  simp [Serve.projection_ml, hm, ha, hne]

/-- Witness for C7: an active model trained with lookback 3 rejects a
request with lookback 5 whatever the artifact store, snapshot and
model do. -/
theorem c7_serving_lookback_mismatch_witness :
    Serve.projection_ml true [⟨1, "rec_yds", "receiving_yards", "Receiving Yards"⟩]
        [⟨1, 3, "ridge_v1", "/artifacts/m.joblib"⟩] (fun _ => true) none (fun _ => 0)
        42 "rec_yds" 5
      = Except.error (Serve.ApiError.lookbackMismatch 3 5) :=
  c7_serving_lookback_mismatch [⟨1, "rec_yds", "receiving_yards", "Receiving Yards"⟩]
    [⟨1, 3, "ridge_v1", "/artifacts/m.joblib"⟩] 42 5 "rec_yds"
    ⟨1, "rec_yds", "receiving_yards", "Receiving Yards"⟩
    ⟨1, 3, "ridge_v1", "/artifacts/m.joblib"⟩ (by rfl) (by rfl) (by decide)
    (fun _ => true) none (fun _ => 0)

/-- Inversion of a successful training run: the metadata it writes
stores exactly the trainer's ordered feature-column list. -/
lemma train_job_ok_meta (markets : List Market) (tbl : List FeatEntry)
    (mc mn ad : String) (lb : ℕ) (out : Train.TrainOutput)
    (h : Train.train_job markets tbl mc mn ad lb = Except.ok out) :
    out.meta.feature_cols = Train.FEATURE_COLS := by
  unfold Train.train_job at h
  cases hf : markets.find? (fun m => decide (m.code = mc)) with
  | none =>
      rw [hf] at h
      exact absurd h (by simp)
  | some m =>
      rw [hf] at h
      by_cases hlt : (Train.labeled_rows tbl m.id lb).length < 10
      · simp only [hlt, if_true] at h
        exact absurd h (by simp)
      · simp only [hlt, if_false] at h
        cases h
        rfl

/-- C8 (amended): the evaluator assembles the model input positionally
in the loaded feature-column order; the loaded order is the stored
feature_cols list whenever the metadata file is present with a
non-empty list, and the fixed default [mean, stddev, weighted_mean,
trend] when the metadata file is missing OR when its feature_cols
entry is missing, not a list, or empty; every artifact this trainer
writes stores exactly the default list, which is also the fixed list
the serving path uses — so evaluation and prediction of this trainer's
artifacts always use the stored order. -/
theorem c8_feature_cols_authority :
    (∀ (cols : List String) (r : Eval.EvalRow) (i : ℕ),
      (Eval.featuresOf cols r)[i]? = (cols[i]?).map (fun c => (Eval.EvalRow.col r c).getD 0))
    ∧ Eval.load_feature_cols_from_metadata none = Eval.DEFAULT_FEATURE_COLS
    ∧ (∀ mf : Eval.MetaFile, mf.feature_cols = none →
        Eval.load_feature_cols_from_metadata (some mf) = Eval.DEFAULT_FEATURE_COLS)
    ∧ Eval.load_feature_cols_from_metadata (some ⟨some []⟩) = Eval.DEFAULT_FEATURE_COLS
    ∧ (∀ cols : List String, cols ≠ [] →
        Eval.load_feature_cols_from_metadata (some ⟨some cols⟩) = cols)
    ∧ (∀ (markets : List Market) (tbl : List FeatEntry) (mc mn ad : String) (lb : ℕ)
        (out : Train.TrainOutput),
        Train.train_job markets tbl mc mn ad lb = Except.ok out →
        out.meta.feature_cols = Train.FEATURE_COLS
          ∧ Serve.FEATURE_COLS = out.meta.feature_cols
          ∧ Eval.load_feature_cols_from_metadata (some ⟨some out.meta.feature_cols⟩)
              = out.meta.feature_cols)
    ∧ Eval.DEFAULT_FEATURE_COLS = Train.FEATURE_COLS := by
  refine ⟨?_, rfl, ?_, rfl, ?_, ?_, rfl⟩
  · intro cols r i
    unfold Eval.featuresOf
    rw [List.getElem?_map]
  · intro mf hmf
    simp [Eval.load_feature_cols_from_metadata, hmf]
  · intro cols hcols
    unfold Eval.load_feature_cols_from_metadata
    simp [hcols]
  · intro markets tbl mc mn ad lb out hout
    have hmeta := train_job_ok_meta markets tbl mc mn ad lb out hout
    refine ⟨hmeta, by rw [hmeta]; rfl, ?_⟩
    rw [hmeta]
    rfl

/-- Witness for C8: a metadata file storing a non-empty column list is
authoritative for the evaluator. -/
theorem c8_feature_cols_authority_witness :
    Eval.load_feature_cols_from_metadata (some ⟨some ["trend", "mean"]⟩) = ["trend", "mean"] :=
  c8_feature_cols_authority.2.2.2.2.1 ["trend", "mean"] (by simp)

/-- Counterexample to C8 as stated: the evaluator also falls back to
the default column list when the metadata file EXISTS but its
feature_cols entry is empty (or missing/not a list) — not only when
the metadata file is missing. -/
theorem c8_feature_cols_fallback_counterexample :
    Eval.load_feature_cols_from_metadata (some ⟨some []⟩) = Eval.DEFAULT_FEATURE_COLS
    ∧ (some (⟨some []⟩ : Eval.MetaFile)) ≠ (none : Option Eval.MetaFile) := by
  exact ⟨rfl, by simp⟩

end PropML

namespace PropML

/-- C10: for at least 2 rows and any test_frac strictly inside
(0, 0.8), time_split returns the two contiguous order-preserving
slices at the cutoff, the cutoff is clamped into [1, n - 1], both
slices are non-empty (the scored test set in particular), and together
they partition the input in order. -/
theorem c10_time_split_clamped (df : List Eval.EvalRow) (tf : ℚ)
    (h2 : 2 ≤ df.length) (h0 : 0 < tf) (h8 : tf < 4 / 5) :
    Eval.time_split df tf
        = Except.ok (df.take (Eval.cutoff df.length tf).toNat,
                     df.drop (Eval.cutoff df.length tf).toNat)
    ∧ 1 ≤ (Eval.cutoff df.length tf).toNat
    ∧ (Eval.cutoff df.length tf).toNat ≤ df.length - 1
    ∧ df.take (Eval.cutoff df.length tf).toNat ≠ []
    ∧ df.drop (Eval.cutoff df.length tf).toNat ≠ []
    ∧ df.take (Eval.cutoff df.length tf).toNat
        ++ df.drop (Eval.cutoff df.length tf).toNat = df := by
  have hvalid : ¬(tf ≤ 0 ∨ (4 / 5 : ℚ) ≤ tf) := by
    push_neg
    exact ⟨h0, h8⟩
  have hlen2 : (2 : ℤ) ≤ (df.length : ℤ) := by exact_mod_cast h2
  have h1z : (1 : ℤ) ≤ Eval.cutoff df.length tf := le_max_left _ _
  have hlez : Eval.cutoff df.length tf ≤ (df.length : ℤ) - 1 := by
    refine max_le ?_ (min_le_right _ _)
    omega
  have h1n : 1 ≤ (Eval.cutoff df.length tf).toNat := by omega
  have hlen : (Eval.cutoff df.length tf).toNat ≤ df.length - 1 := by omega
  refine ⟨?_, h1n, hlen, ?_, ?_, List.take_append_drop _ _⟩
  · unfold Eval.time_split
    rw [if_neg hvalid]
  · apply List.ne_nil_of_length_pos
    rw [List.length_take]
    omega
  · apply List.ne_nil_of_length_pos
    rw [List.length_drop]
    omega

/-- Witness for C10: two rows and test_frac 1/2 split into two
non-empty halves. -/
theorem c10_time_split_clamped_witness :
    Eval.time_split
        [⟨1, 1, "WR", 0, 0, 0, 0, 0⟩, ⟨2, 2, "WR", 0, 0, 0, 0, 0⟩] (1 / 2)
      = Except.ok
          ([⟨1, 1, "WR", 0, 0, 0, 0, 0⟩, ⟨2, 2, "WR", 0, 0, 0, 0, 0⟩].take
            (Eval.cutoff
              (([⟨1, 1, "WR", 0, 0, 0, 0, 0⟩, ⟨2, 2, "WR", 0, 0, 0, 0, 0⟩] :
                List Eval.EvalRow).length) (1 / 2)).toNat,
           [⟨1, 1, "WR", 0, 0, 0, 0, 0⟩, ⟨2, 2, "WR", 0, 0, 0, 0, 0⟩].drop
            (Eval.cutoff
              (([⟨1, 1, "WR", 0, 0, 0, 0, 0⟩, ⟨2, 2, "WR", 0, 0, 0, 0, 0⟩] :
                List Eval.EvalRow).length) (1 / 2)).toNat) :=
  (c10_time_split_clamped
      [⟨1, 1, "WR", 0, 0, 0, 0, 0⟩, ⟨2, 2, "WR", 0, 0, 0, 0, 0⟩] (1 / 2)
      (by simp) (by norm_num) (by norm_num)).1

end PropML

namespace PropML

/-- Inversion of a successful labeled-row load: the returned rows are
the query result restricted by the market-specific population
filter. -/
lemma load_labeled_rows_ok_eq (mc : String) (fc : List String) (raw df : List Eval.EvalRow)
    (h : Eval.load_labeled_rows mc fc raw = Except.ok df) :
    df = (if mc = "rec_yds" then
        raw.filter (fun r => Eval.eligible_positions.contains r.position)
      else raw) := by
  unfold Eval.load_labeled_rows at h
  by_cases he : raw.isEmpty = true
  · rw [if_pos he] at h
    exact absurd h (by simp)
  · rw [if_neg he] at h
    by_cases hc : ((fc ++ ["label_actual"]).all (fun c => Eval.evalColumns.contains c)) = true
    · simp only [hc, if_true] at h
      exact (Except.ok.inj h).symm
    · simp only [hc, if_false] at h
      exact absurd h (by simp)

/-- Successful load under a passing column check. -/
lemma load_labeled_rows_ok (mc : String) (fc : List String) (raw : List Eval.EvalRow)
    (hraw : raw ≠ [])
    (hc : ((fc ++ ["label_actual"]).all (fun c => Eval.evalColumns.contains c)) = true) :
    Eval.load_labeled_rows mc fc raw
      = Except.ok (if mc = "rec_yds" then
          raw.filter (fun r => Eval.eligible_positions.contains r.position)
        else raw) := by
  unfold Eval.load_labeled_rows
  rw [if_neg (by simp [List.isEmpty_eq_false.mpr hraw])]
  simp only [hc, if_true]

/-- A mean-absolute-error computation on a non-empty test slice
succeeds. -/
lemma compute_mae_ok (preds ys : List ℚ) (h : preds ≠ []) :
    Eval.compute_mae preds ys
      = Except.ok (((preds.zip ys).map (fun p => |p.1 - p.2|)).sum / (preds.length : ℚ)) := by
  unfold Eval.compute_mae
  rw [if_neg (by simp [List.isEmpty_eq_false.mpr h])]

/-- C6: evaluation fails on an empty labeled-row query; with rows
present it fails the TEST_FRAC validation exactly outside (0, 0.8);
when the market-specific eligible-population restriction empties the
population the run also fails (empty test metrics); otherwise, on at
least two date-then-player-sorted rows, the job succeeds and splits
them in input order without shuffling at the clamped cutoff: the
earliest rows form the training reference, only the trailing slice is
scored, every training row precedes every scored row in the
date-then-player order, and with 1000 rows and test_frac 1/5 the
cutoff is 800, so the earliest 800 rows are excluded and exactly the
latest 200 are scored. -/
theorem c6_eval_time_ordered_split (metaFile : Option Eval.MetaFile) (market_code : String)
    (raw : List Eval.EvalRow) (tf : ℚ) (predict : List ℚ → ℚ)
    (hcols : ((Eval.load_feature_cols_from_metadata metaFile ++ ["label_actual"]).all
        (fun c => Eval.evalColumns.contains c)) = true) :
    (raw = [] → Eval.eval_job metaFile true market_code raw tf predict
        = Except.error Eval.EvalError.noLabeledRows)
    ∧ (raw ≠ [] → (tf ≤ 0 ∨ (4 / 5 : ℚ) ≤ tf) →
        Eval.eval_job metaFile true market_code raw tf predict
          = Except.error Eval.EvalError.invalidTestFrac)
    ∧ (∀ df, Eval.load_labeled_rows market_code
          (Eval.load_feature_cols_from_metadata metaFile) raw = Except.ok df →
        df = [] → 0 < tf → tf < 4 / 5 →
        Eval.eval_job metaFile true market_code raw tf predict
          = Except.error Eval.EvalError.emptyTestMetrics)
    ∧ (∀ df, Eval.load_labeled_rows market_code
          (Eval.load_feature_cols_from_metadata metaFile) raw = Except.ok df →
        2 ≤ df.length → 0 < tf → tf < 4 / 5 → List.Sorted Eval.rowLE raw →
        List.Sorted Eval.rowLE df
        ∧ ∃ rep, Eval.eval_job metaFile true market_code raw tf predict = Except.ok rep
          ∧ rep.train_refs = df.take (Eval.cutoff df.length tf).toNat
          ∧ rep.scored = df.drop (Eval.cutoff df.length tf).toNat
          ∧ rep.train_refs ++ rep.scored = df
          ∧ rep.rows_total = df.length
          ∧ rep.feature_cols = Eval.load_feature_cols_from_metadata metaFile
          ∧ rep.scored ≠ []
          ∧ (∀ a ∈ rep.train_refs, ∀ b ∈ rep.scored, Eval.rowLE a b))
    ∧ Eval.cutoff 1000 (1 / 5) = 800
    ∧ (∀ df : List Eval.EvalRow, df.length = 1000 →
        (df.drop (Eval.cutoff df.length (1 / 5)).toNat).length = 200
        ∧ df.take (Eval.cutoff df.length (1 / 5)).toNat = df.take 800
        ∧ df.drop (Eval.cutoff df.length (1 / 5)).toNat = df.drop 800) := by
  have hcut1000 : Eval.cutoff 1000 (1 / 5) = 800 := by norm_num [Eval.cutoff]
  refine ⟨?_, ?_, ?_, ?_, hcut1000, ?_⟩
  · intro hraw
    subst hraw
    simp [Eval.eval_job, Eval.load_labeled_rows]
  · intro hraw hbad
    have hload := load_labeled_rows_ok market_code
      (Eval.load_feature_cols_from_metadata metaFile) raw hraw hcols
    simp only [Eval.eval_job, Bool.not_true, Bool.false_eq_true, if_false, hload]
    have hts : Eval.time_split (if market_code = "rec_yds" then
        raw.filter (fun r => Eval.eligible_positions.contains r.position)
      else raw) tf = Except.error Eval.EvalError.invalidTestFrac := by
      unfold Eval.time_split
      rw [if_pos hbad]
    rw [hts]
  · intro df hload hdf h0 h8
    have hvalid : ¬(tf ≤ 0 ∨ (4 / 5 : ℚ) ≤ tf) := by
      push_neg
      exact ⟨h0, h8⟩
    subst hdf
    simp only [Eval.eval_job, Bool.not_true, Bool.false_eq_true, if_false, hload]
    have hts : Eval.time_split ([] : List Eval.EvalRow) tf
        = Except.ok (([] : List Eval.EvalRow).take
              (Eval.cutoff ([] : List Eval.EvalRow).length tf).toNat,
            ([] : List Eval.EvalRow).drop
              (Eval.cutoff ([] : List Eval.EvalRow).length tf).toNat) := by
      unfold Eval.time_split
      rw [if_neg hvalid]
    rw [hts]
    simp [Eval.compute_mae]
  · intro df hload hdf2 h0 h8 hsortraw
    have hvalid : ¬(tf ≤ 0 ∨ (4 / 5 : ℚ) ≤ tf) := by
      push_neg
      exact ⟨h0, h8⟩
    have hdfeq := load_labeled_rows_ok_eq market_code
      (Eval.load_feature_cols_from_metadata metaFile) raw df hload
    have hsortdf : List.Sorted Eval.rowLE df := by
      rw [hdfeq]
      by_cases hmc : market_code = "rec_yds"
      · rw [if_pos hmc]
        exact List.Pairwise.filter _ hsortraw
      · rw [if_neg hmc]
        exact hsortraw
    have hlen2 : (2 : ℤ) ≤ (df.length : ℤ) := by exact_mod_cast hdf2
    have h1z : (1 : ℤ) ≤ Eval.cutoff df.length tf := le_max_left _ _
    have hlez : Eval.cutoff df.length tf ≤ (df.length : ℤ) - 1 := by
      refine max_le ?_ (min_le_right _ _)
      omega
    have hdrop_ne : df.drop (Eval.cutoff df.length tf).toNat ≠ [] := by
      apply List.ne_nil_of_length_pos
      rw [List.length_drop]
      omega
    have hts : Eval.time_split df tf
        = Except.ok (df.take (Eval.cutoff df.length tf).toNat,
                     df.drop (Eval.cutoff df.length tf).toNat) := by
      unfold Eval.time_split
      rw [if_neg hvalid]
    refine ⟨hsortdf, ?_⟩
    have hpair : ∀ a ∈ df.take (Eval.cutoff df.length tf).toNat,
        ∀ b ∈ df.drop (Eval.cutoff df.length tf).toNat, Eval.rowLE a b := by
      have := List.pairwise_append.mp (by
        rwa [List.take_append_drop (Eval.cutoff df.length tf).toNat df] : List.Pairwise
          Eval.rowLE (df.take (Eval.cutoff df.length tf).toNat
            ++ df.drop (Eval.cutoff df.length tf).toNat))
      exact this.2.2
    simp only [Eval.eval_job, Bool.not_true, Bool.false_eq_true, if_false, hload, hts]
    have hne1 : ((df.drop (Eval.cutoff df.length tf).toNat).map
        (fun r => predict (Eval.featuresOf (Eval.load_feature_cols_from_metadata metaFile) r))) ≠ [] := by
      rw [Ne, List.map_eq_nil_iff]
      exact hdrop_ne
    have hne2 : ((df.drop (Eval.cutoff df.length tf).toNat).map Eval.EvalRow.weighted_mean) ≠ [] := by
      rw [Ne, List.map_eq_nil_iff]
      exact hdrop_ne
    rw [compute_mae_ok _ _ hne1, compute_mae_ok _ _ hne2]
    refine ⟨_, rfl, rfl, rfl, List.take_append_drop _ _, rfl, rfl, hdrop_ne, hpair⟩
  · intro df hlen
    rw [hlen, hcut1000]
    refine ⟨?_, rfl, rfl⟩
    rw [List.length_drop, hlen]
    decide

end PropML

namespace PropML

/-- Witness for C6: with the default metadata columns and an empty
labeled-row query, the evaluation job fails with the no-labeled-rows
error. -/
theorem c6_eval_time_ordered_split_witness :
    Eval.eval_job none true "rec_yds" [] (1 / 2) (fun _ => 0)
      = Except.error Eval.EvalError.noLabeledRows :=
  (c6_eval_time_ordered_split none "rec_yds" [] (1 / 2) (fun _ => 0) (by rfl)).1 rfl

end PropML
